import Mathlib

/-!
Shallow embedding of the document-structure analysis and image-insertion
engine of the bid-agent repository (src/utils/docx_utils.py,
src/skills/image_inserter.py, src/skills/llm_advisor.py,
src/skills/base_skill.py), together with proofs about the frozen claims.

A word-processing document is modelled as an ordered list of paragraphs;
a paragraph carries its runs (text runs and image runs), its named style
and its optional alignment, which is exactly the state the Python code
reads and mutates through python-docx.  Image width (a Python float) is
not modelled: no claim depends on it.
-/

namespace BidAgent

/-- A run inside a paragraph: either a text run or an image run
(`run.add_picture(path)`).  The picture width (a float) is not modelled. -/
inductive Run where
  | text (s : String)
  | image (imagePath : String)
deriving DecidableEq, Repr

/-- Paragraph alignment (`WD_ALIGN_PARAGRAPH` values used by the code). -/
inductive Alignment where
  | left
  | center
  | right
deriving DecidableEq, Repr

/-- A paragraph: its runs, its named style (`para.style.name`) and its
optional alignment (`para.alignment`, `None` by default). -/
structure Para where
  runs : List Run
  style : String
  alignment : Option Alignment
deriving DecidableEq, Repr

/-- A document, as the ordered list `doc.paragraphs` that python-docx
exposes and that all of docx_utils.py operates on. -/
structure Document where
  paragraphs : List Para
deriving DecidableEq, Repr

/-- The paragraph produced by `para.insert_paragraph_before("")` and by
`doc.add_paragraph()`: no runs, default style, no explicit alignment. -/
def emptyParagraph : Para := { runs := [], style := "Normal", alignment := none }

/-- Python `str.lower()`, character by character (the alignment strings the
code compares against are plain ASCII). -/
def pyLower (s : String) : String := ⟨s.data.map Char.toLower⟩

/-- `alignment_map.get(alignment.lower(), WD_ALIGN_PARAGRAPH.CENTER)` from
docx_utils.py lines 215-220. -/
def alignFromString (s : String) : Alignment :=
  if pyLower s = "left" then Alignment.left
  else if pyLower s = "center" then Alignment.center
  else if pyLower s = "right" then Alignment.right
  else Alignment.center

/-- docx_utils.py lines 173-222, `insert_image_at_paragraph`, modelled
step by step from the source:

* when `para_index < len(doc.paragraphs)`, the code first calls
  `para.insert_paragraph_before("")`, which inserts an empty paragraph
  directly before the anchor (the `""` argument is falsy, so no run is
  added); it then evaluates `doc.add_paragraph()` (an empty paragraph
  appended at the end) and `para._element.addnext(...)`, which moves that
  element to directly after the anchor.  lxml's `addnext` returns `None`,
  so `para_for_image` is `None`, the lookup loop `for p in doc.paragraphs:
  if p._element == para_for_image` never matches, and `para` is still the
  anchor paragraph; the image run and the alignment are therefore applied
  to the anchor paragraph itself;
* otherwise the code appends a fresh paragraph at the end and puts the
  image run there. -/
def insert_image_at_paragraph (doc : Document) (para_index : Nat)
    (image_path : String) (alignment : String) : Document :=
  if para_index < doc.paragraphs.length then
    { paragraphs :=
        doc.paragraphs.take para_index
          ++ [emptyParagraph,
              (fun p =>
                { p with
                  runs := p.runs ++ [Run.image image_path],
                  alignment := some (alignFromString alignment) })
                (doc.paragraphs.getD para_index emptyParagraph),
              emptyParagraph]
          ++ doc.paragraphs.drop (para_index + 1) }
  else
    { paragraphs :=
        doc.paragraphs ++
          [{ runs := [Run.image image_path], style := "Normal",
             alignment := some (alignFromString alignment) }] }

/-- One entry of the batch plan handed to `insert_images_batch`
(a dict with keys `image_path` and `insert_after_para`). -/
structure PlanItem where
  image_path : String
  insert_after_para : Nat
deriving DecidableEq, Repr

/-- Stable insertion of one item into a list already sorted by
`insert_after_para` in descending order: an item is placed before the
first element whose key is `≤` its own, so earlier input items stay
first among equal keys. -/
def insertPlanDesc (x : PlanItem) : List PlanItem → List PlanItem
  | [] => [x]
  | y :: ys =>
    if y.insert_after_para ≤ x.insert_after_para then x :: y :: ys
    else y :: insertPlanDesc x ys

/-- `sorted(insertion_plan, key=lambda x: x['insert_after_para'],
reverse=True)` from docx_utils.py line 246: a stable descending sort,
realized as a stable insertion sort. -/
def sortPlanDesc : List PlanItem → List PlanItem
  | [] => []
  | x :: xs => insertPlanDesc x (sortPlanDesc xs)

/-- docx_utils.py lines 225-262, `insert_images_batch`, the in-memory
part: sort the plan by `insert_after_para` in reverse order, then apply
`insert_image_at_paragraph` for each item in turn on the loaded document.
Loading from `doc_path` and the single final `doc.save(output_path)` are
modelled separately by `insert_images_batch_io`. -/
def insert_images_batch (doc : Document) (insertion_plan : List PlanItem)
    (alignment : String) : Document :=
  (sortPlanDesc insertion_plan).foldl
    (fun d item =>
      insert_image_at_paragraph d item.insert_after_para item.image_path alignment)
    doc

/-- The filesystem side of docx_utils.py lines 225-262: `Document(doc_path)`
is the single read, the loop mutates only the in-memory document, and
`doc.save(str(output_path))` is the single write, performed after the loop.
The model takes the filesystem as a map from paths to documents and returns
the updated map together with the list of writes performed, in order. -/
def insert_images_batch_io (fileDoc : String → Document)
    (doc_path output_path : String) (insertion_plan : List PlanItem)
    (alignment : String) : (String → Document) × List (String × Document) :=
  let doc := fileDoc doc_path
  let final := insert_images_batch doc insertion_plan alignment
  (fun p => if p = output_path then final else fileDoc p,
   [(output_path, final)])

/-- Helper for concrete test documents: a paragraph holding one text run. -/
def tpara (s : String) : Para := { runs := [Run.text s], style := "Normal", alignment := none }

/-- A 10-paragraph document, the failing input of the reverse-order claim. -/
def doc10 : Document :=
  ⟨[tpara "p0", tpara "p1", tpara "p2", tpara "p3", tpara "p4",
    tpara "p5", tpara "p6", tpara "p7", tpara "p8", tpara "p9"]⟩

/-- The plan of the reverse-order claim: anchors [2, 5, 5, 9]. -/
def plan2559 : List PlanItem :=
  [⟨"img0.png", 2⟩, ⟨"img1.png", 5⟩, ⟨"img2.png", 5⟩, ⟨"img3.png", 9⟩]

/-- Claim C1: evaluating the engine at the claim's own scenario (a
10-paragraph document, anchors [2, 5, 5, 9]) yields 18 paragraphs, not the
14 the claim requires, and the image destined for anchor 9 ends up as a run
inside original paragraph 9 itself (at output position 16) rather than in a
new paragraph of its own: each applied decision adds two empty paragraphs
and appends its image run to the anchor paragraph, because `addnext`
returns `None` and the new-paragraph lookup in
`insert_image_at_paragraph` never succeeds. -/
theorem reverse_order_c1_failing_eval :
    (insert_images_batch doc10 plan2559 "center").paragraphs.length = 18 ∧
    ((insert_images_batch doc10 plan2559 "center").paragraphs.getD 16 emptyParagraph).runs
      = [Run.text "p9", Run.image "img3.png"] := by
  constructor <;> rfl

/-- A one-paragraph document used for the postcondition claim. -/
def docHello : Document := ⟨[{ runs := [Run.text "hello"], style := "Body", alignment := none }]⟩

/-- Claim C2: evaluating the engine on a one-paragraph document and a single
decision with anchor 0 shows the output verbatim: two new paragraphs are
introduced and both are empty (no image run), while the image run is
appended into the pre-existing anchor paragraph, whose alignment is also
overwritten — contradicting "exactly one new image-bearing paragraph per
applied decision and no other new paragraphs". -/
theorem postcondition_c2_failing_eval :
    insert_images_batch docHello [⟨"img.png", 0⟩] "center" =
      ⟨[emptyParagraph,
        { runs := [Run.text "hello", Run.image "img.png"], style := "Body",
          alignment := some Alignment.center },
        emptyParagraph]⟩ := by
  decide

/-! ## The image-inserter skill (src/skills/image_inserter.py) -/

/-- One decision of the oracle's insertion plan, as consumed by
`ImageInserterSkill.execute`: `decision["image_index"]` is a Python int
(so it may be negative), `decision["insert_after_para"]` an anchor index. -/
structure Decision where
  image_index : Int
  insert_after_para : Nat
deriving DecidableEq, Repr

/-- One record of `state["extracted_images"]`, as read by the inserter
skill: only its `temp_path` entry is consumed. -/
structure ExtractedImage where
  temp_path : String
deriving DecidableEq, Repr

/-- Python list subscripting `l[i]` with an `Int` index: non-negative
indices address from the front, indices in `[-len, -1]` address from the
end, anything else raises `IndexError` (here: `none`). -/
def pyListGet {α : Type} (l : List α) (i : Int) : Option α :=
  if 0 ≤ i then l[i.toNat]?
  else if 0 ≤ (l.length : Int) + i then l[((l.length : Int) + i).toNat]?
  else none

/-- image_inserter.py lines 53-76, the plan-building loop of
`ImageInserterSkill.execute`: a decision with
`image_index >= len(extracted_images)` is skipped with a warning; otherwise
`extracted_images[image_index]` is read (Python indexing, so a negative
index resolves from the end and an index below `-len` raises — modelled as
`none` for the whole loop); a decision whose image file does not exist is
skipped with a warning; every other decision contributes one batch entry
`{image_path, insert_after_para}`, in plan order. -/
def buildBatchPlan (fileExists : String → Bool) (imgs : List ExtractedImage) :
    List Decision → Option (List PlanItem)
  | [] => some []
  | d :: ds =>
    if (imgs.length : Int) ≤ d.image_index then
      buildBatchPlan fileExists imgs ds
    else
      match pyListGet imgs d.image_index with
      | none => none
      | some info =>
        if fileExists info.temp_path then
          (buildBatchPlan fileExists imgs ds).map
            (fun rest => ⟨info.temp_path, d.insert_after_para⟩ :: rest)
        else buildBatchPlan fileExists imgs ds

/-- The slice of the pipeline state read by `ImageInserterSkill`; a `none`
field models an absent dictionary key. -/
structure SkillState where
  target_path : Option String
  insertion_plan : Option (List Decision)
  extracted_images : Option (List ExtractedImage)

/-- image_inserter.py lines 17-35, `ImageInserterSkill.validate_input`:
fails when any of the three required keys is absent, when
`state.get("insertion_plan")` is falsy (absent or the empty list), or when
the target document does not exist on disk. -/
def validate_input (fileExists : String → Bool) (s : SkillState) : Bool :=
  s.target_path.isSome &&
  s.insertion_plan.isSome &&
  s.extracted_images.isSome &&
  (match s.insertion_plan with
   | some plan => !plan.isEmpty
   | none => false) &&
  (match s.target_path with
   | some p => fileExists p
   | none => false)

/-- image_inserter.py lines 37-105, the document transformation performed
by `ImageInserterSkill.execute`: build the batch plan from the decisions
and run `insert_images_batch` on the target document; `none` models an
uncaught exception from the plan-building loop.  (The output-path
synthesis `<stem>_result<suffix>` under the output directory only names
the destination file and is not modelled.) -/
def inserter_execute (fileExists : String → Bool) (doc : Document)
    (plan : List Decision) (imgs : List ExtractedImage) (alignment : String) :
    Option Document :=
  (buildBatchPlan fileExists imgs plan).map
    (fun bp => insert_images_batch doc bp alignment)

/-- Outcome of `BaseSkill.run`: either the updated state (here, the output
document) or an error recorded by `handle_error`. -/
inductive RunOutcome where
  | ok (doc : Document)
  | error
deriving DecidableEq, Repr

/-- base_skill.py lines 61-83, `BaseSkill.run` specialized to the inserter
skill: a failed `validate_input` is turned into an error state via
`handle_error(ValueError(...))`; an exception escaping `execute` likewise;
otherwise the executed result is returned. -/
def inserter_run (fileExists : String → Bool) (doc : Document) (tp : String)
    (plan : List Decision) (imgs : List ExtractedImage) (alignment : String) :
    RunOutcome :=
  if validate_input fileExists ⟨some tp, some plan, some imgs⟩ then
    match inserter_execute fileExists doc plan imgs alignment with
    | some d => RunOutcome.ok d
    | none => RunOutcome.error
  else RunOutcome.error

/-- llm_advisor.py lines 276-286, the post-parse handling in
`LLMAdvisorSkill.execute`: a size mismatch between the parsed plan and the
extracted images only logs a warning (first component: whether the warning
fired); the plan is stored in `state["insertion_plan"]` unchanged. -/
def advisor_plan_update (plan : List Decision) (num_images : Nat) :
    Bool × List Decision :=
  (decide (plan.length ≠ num_images), plan)

/-- A successful `pyListGet` implies the index is below the length. -/
theorem pyListGet_lt {α : Type} {l : List α} {i : Int} {x : α}
    (h : pyListGet l i = some x) : i < (l.length : Int) := by
  unfold pyListGet at h
  split at h
  · next h0 =>
    have hlt : i.toNat < l.length := by
      by_contra hge
      rw [List.getElem?_eq_none (by omega)] at h
      exact Option.noConfusion h
    omega
  · split at h
    · omega
    · exact absurd h (by simp)

/-- Whether one decision survives the filtering of the plan-building loop:
its image index is in range (after Python index resolution) and its
resolved image file exists. -/
def decision_applies (fileExists : String → Bool) (imgs : List ExtractedImage)
    (d : Decision) : Bool :=
  match pyListGet imgs d.image_index with
  | some info => !((imgs.length : Int) ≤ d.image_index) && fileExists info.temp_path
  | none => false

/-- Three extracted images, used as concrete inputs below. -/
def imgs3 : List ExtractedImage := [⟨"i0.png"⟩, ⟨"i1.png"⟩, ⟨"i2.png"⟩]

/-- A two-paragraph document used as a concrete insertion target below. -/
def docAB : Document := ⟨[tpara "a", tpara "b"]⟩

/-- Claim C3 (counterexample): `image_index = -1` is outside the extracted
image set `{0, 1, 2}`, yet the skill does not skip it — Python negative
indexing resolves it to the last image and inserts it — so the output
document differs from the one produced with that decision removed. -/
theorem skip_on_invalid_counterexample :
    inserter_execute (fun _ => true) docAB [⟨-1, 0⟩] imgs3 "center" ≠
      inserter_execute (fun _ => true) docAB [] imgs3 "center" := by
  decide

/-- Claim C3 (amended): a decision whose `image_index` is `≥` the number of
extracted images (e.g. 999 against a batch of 3), or whose resolved image
file does not exist on disk, is skipped without error: the batch plan — and
hence the output document — is identical to the one produced by the same
plan with that decision removed, wherever the decision sits in the plan. -/
theorem skip_on_invalid_amended (fileExists : String → Bool)
    (imgs : List ExtractedImage) (pre post : List Decision) (d : Decision)
    (h : (imgs.length : Int) ≤ d.image_index ∨
      ∃ info, pyListGet imgs d.image_index = some info ∧
        fileExists info.temp_path = false) :
    buildBatchPlan fileExists imgs (pre ++ d :: post) =
      buildBatchPlan fileExists imgs (pre ++ post) ∧
    ∀ doc alignment,
      inserter_execute fileExists doc (pre ++ d :: post) imgs alignment =
        inserter_execute fileExists doc (pre ++ post) imgs alignment := by
  have hplan : buildBatchPlan fileExists imgs (pre ++ d :: post) =
      buildBatchPlan fileExists imgs (pre ++ post) := by
    induction pre with
    | nil =>
      simp only [List.nil_append]
      rcases h with hge | ⟨info, hget, hmiss⟩
      · rw [buildBatchPlan, if_pos hge]
      · have hlt : ¬ ((imgs.length : Int) ≤ d.image_index) :=
          not_le.mpr (pyListGet_lt hget)
        rw [buildBatchPlan, if_neg hlt, hget]
        simp [hmiss]
    | cons p pre ih =>
      simp only [List.cons_append]
      rw [buildBatchPlan, buildBatchPlan]
      by_cases hc : (imgs.length : Int) ≤ p.image_index
      · simp only [if_pos hc, ih]
      · simp only [if_neg hc]
        cases hg : pyListGet imgs p.image_index with
        | none => rfl
        | some info =>
          by_cases hf : fileExists info.temp_path
          · simp only [if_pos hf, ih]
          · simp only [if_neg hf, ih]
  exact ⟨hplan, fun doc alignment => by
    unfold inserter_execute
    rw [hplan]⟩

/-- Witness for the amended skip claim: a decision with `image_index = 999`
against 3 extracted images is dropped from the batch plan. -/
theorem skip_on_invalid_amended_witness :
    buildBatchPlan (fun _ => true) imgs3 [⟨999, 0⟩, ⟨0, 1⟩] =
      buildBatchPlan (fun _ => true) imgs3 [⟨0, 1⟩] :=
  (skip_on_invalid_amended (fun _ => true) imgs3 [] [⟨0, 1⟩] ⟨999, 0⟩
    (Or.inl (by decide))).1

/-- Claim C10: a decision whose `image_index` is negative but not below
`-len(extracted_images)` is not skipped as out of range — the range check
only tests `image_index >= len(extracted_images)` — and Python indexing
resolves it to the image at position `len + image_index`, whose file is
inserted at the decision's anchor. -/
theorem negative_image_index_resolves (fileExists : String → Bool)
    (imgs : List ExtractedImage) (ds : List Decision) (d : Decision)
    (info : ExtractedImage)
    (h1 : -(imgs.length : Int) ≤ d.image_index)
    (h2 : d.image_index < 0)
    (h3 : imgs[((imgs.length : Int) + d.image_index).toNat]? = some info)
    (h4 : fileExists info.temp_path = true) :
    buildBatchPlan fileExists imgs (d :: ds) =
      (buildBatchPlan fileExists imgs ds).map
        (fun rest => ⟨info.temp_path, d.insert_after_para⟩ :: rest) := by
  have hnot : ¬ ((imgs.length : Int) ≤ d.image_index) := by omega
  rw [buildBatchPlan, if_neg hnot]
  have hget : pyListGet imgs d.image_index = some info := by
    unfold pyListGet
    rw [if_neg (by omega), if_pos (by omega)]
    exact h3
  rw [hget]
  simp [h4]

/-- Witness for the negative-index claim: `image_index = -1` against 3
extracted images resolves to the last image `i2.png` at anchor 4. -/
theorem negative_image_index_resolves_witness :
    buildBatchPlan (fun _ => true) imgs3 [⟨-1, 4⟩] =
      (buildBatchPlan (fun _ => true) imgs3 []).map
        (fun rest => ⟨"i2.png", 4⟩ :: rest) :=
  negative_image_index_resolves (fun _ => true) imgs3 [] ⟨-1, 4⟩ ⟨"i2.png"⟩
    (by decide) (by decide) (by decide) (by decide)

/-- Claim C4 (counterexample): an empty insertion plan — a plan whose size
(0) differs from the image count (1) — is not merely warned about: the
inserter's `validate_input` rejects it, and `BaseSkill.run` converts that
into an error state via `handle_error(ValueError(...))`. -/
theorem empty_plan_rejected_counterexample :
    validate_input (fun _ => true) ⟨some "t.docx", some [], some [⟨"i0.png"⟩]⟩ = false ∧
    inserter_run (fun _ => true) docAB "t.docx" [] [⟨"i0.png"⟩] "center" =
      RunOutcome.error := by
  decide

/-- Claim C4 (amended): a nonempty insertion plan whose size differs from
the number of extracted images passes the inserter's input validation, the
planning step only logs a warning and stores the plan unchanged, and every
decision of the plan is applied exactly as given: when each decision
resolves to an existing image file, the batch plan has one entry per
decision with the anchors preserved in order, and the run succeeds with the
batch applied to the document. -/
theorem count_mismatch_amended (fileExists : String → Bool) (tp : String)
    (doc : Document) (alignment : String)
    (plan : List Decision) (imgs : List ExtractedImage)
    (hne : plan ≠ [])
    (hmm : plan.length ≠ imgs.length)
    (ht : fileExists tp = true)
    (hv : ∀ d ∈ plan, decision_applies fileExists imgs d = true) :
    validate_input fileExists ⟨some tp, some plan, some imgs⟩ = true ∧
    advisor_plan_update plan imgs.length = (true, plan) ∧
    ∃ bp, buildBatchPlan fileExists imgs plan = some bp ∧
      bp.map PlanItem.insert_after_para = plan.map Decision.insert_after_para ∧
      inserter_run fileExists doc tp plan imgs alignment =
        RunOutcome.ok (insert_images_batch doc bp alignment) := by
  have hval : validate_input fileExists ⟨some tp, some plan, some imgs⟩ = true := by
    simp [validate_input, ht, hne]
  refine ⟨hval, by simp [advisor_plan_update, hmm], ?_⟩
  have hbp : ∃ bp, buildBatchPlan fileExists imgs plan = some bp ∧
      bp.map PlanItem.insert_after_para = plan.map Decision.insert_after_para := by
    clear hne hmm hval
    induction plan with
    | nil => exact ⟨[], rfl, rfl⟩
    | cons d ds ih =>
      have hd := hv d (List.mem_cons_self d ds)
      obtain ⟨bp, hbp, hmap⟩ := ih (fun x hx => hv x (List.mem_cons_of_mem d hx))
      unfold decision_applies at hd
      cases hg : pyListGet imgs d.image_index with
      | none => rw [hg] at hd; exact absurd hd (by simp)
      | some info =>
        rw [hg] at hd
        have hrange : ¬ ((imgs.length : Int) ≤ d.image_index) := by
          by_contra hc
          simp [hc] at hd
        have hfile : fileExists info.temp_path = true := by
          simpa [hrange] using hd
        refine ⟨⟨info.temp_path, d.insert_after_para⟩ :: bp, ?_, ?_⟩
        · rw [buildBatchPlan, if_neg hrange, hg]
          simp [hfile, hbp]
        · simpa using hmap
  obtain ⟨bp, hbp, hmap⟩ := hbp
  refine ⟨bp, hbp, hmap, ?_⟩
  unfold inserter_run
  rw [if_pos hval]
  unfold inserter_execute
  rw [hbp]
  rfl

/-- Witness for the amended count-mismatch claim: a single-decision plan
against two extracted images validates, warns, and is applied as given. -/
theorem count_mismatch_amended_witness :
    validate_input (fun _ => true) ⟨some "t.docx", some [⟨0, 1⟩], some [⟨"a.png"⟩, ⟨"b.png"⟩]⟩ = true ∧
    advisor_plan_update [⟨0, 1⟩] 2 = (true, [⟨0, 1⟩]) ∧
    ∃ bp, buildBatchPlan (fun _ => true) [⟨"a.png"⟩, ⟨"b.png"⟩] [⟨0, 1⟩] = some bp ∧
      bp.map PlanItem.insert_after_para = [Decision.mk 0 1].map Decision.insert_after_para ∧
      inserter_run (fun _ => true) docAB "t.docx" [⟨0, 1⟩] [⟨"a.png"⟩, ⟨"b.png"⟩] "center" =
        RunOutcome.ok (insert_images_batch docAB bp "center") :=
  count_mismatch_amended (fun _ => true) "t.docx" docAB "center"
    [⟨0, 1⟩] [⟨"a.png"⟩, ⟨"b.png"⟩]
    (by decide) (by decide) (by decide) (by decide)

/-- Claim C5: one run of `insert_images_batch` touches the filesystem
exactly twice — one read of the source, one write — and the single write
goes to `outputPath` and carries the document with the whole sorted plan
already applied; when `outputPath` is a different path than the source
(as the caller guarantees by deriving `<stem>_result<suffix>` in a separate
output directory), the source document is unchanged afterwards. -/
theorem single_save_after_batch (fileDoc : String → Document)
    (doc_path output_path : String) (plan : List PlanItem) (alignment : String)
    (h : doc_path ≠ output_path) :
    (insert_images_batch_io fileDoc doc_path output_path plan alignment).1 doc_path
      = fileDoc doc_path ∧
    (insert_images_batch_io fileDoc doc_path output_path plan alignment).2
      = [(output_path, insert_images_batch (fileDoc doc_path) plan alignment)] := by
  unfold insert_images_batch_io
  exact ⟨by simp [h], rfl⟩

/-- Witness for the single-save claim at concrete distinct paths. -/
theorem single_save_after_batch_witness :
    (insert_images_batch_io (fun _ => docAB) "in.docx" "out.docx" plan2559 "center").1 "in.docx"
      = (fun _ => docAB) "in.docx" ∧
    (insert_images_batch_io (fun _ => docAB) "in.docx" "out.docx" plan2559 "center").2
      = [("out.docx", insert_images_batch ((fun _ => docAB) "in.docx") plan2559 "center")] :=
  single_save_after_batch (fun _ => docAB) "in.docx" "out.docx" plan2559 "center"
    (by decide)

/-! ## Document structure analysis (docx_utils.py lines 115-170) -/

/-- The raw data `analyze_document_structure` reads from one python-docx
paragraph: `para.text` and `para.style.name`. -/
structure RawPara where
  text : String
  style : String
deriving DecidableEq, Repr

/-- `ParagraphInfo` dataclass (docx_utils.py lines 31-38); `text` holds the
already-stripped paragraph text, as the code stores it. -/
structure ParagraphInfo where
  index : Nat
  text : String
  style : String
  is_heading : Bool
  heading_level : Option Int
deriving DecidableEq, Repr

/-- `DocumentStructure` dataclass (docx_utils.py lines 41-47). -/
structure DocumentStructure where
  total_paragraphs : Nat
  paragraphs : List ParagraphInfo
  headings : List ParagraphInfo
  empty_paragraphs : List Nat
deriving DecidableEq, Repr

/-- Python `str.strip()` on the paragraph text, implemented structurally:
drop whitespace characters from both ends.  (`Char.isWhitespace` covers the
space/tab/CR/LF characters document text contains; Python's wider Unicode
whitespace set is not modelled.) -/
def pyStrip (s : String) : String :=
  ⟨((s.data.dropWhile Char.isWhitespace).reverse.dropWhile Char.isWhitespace).reverse⟩

/-- Is the first character list a leading segment of the second? -/
def charsLead : List Char → List Char → Bool
  | [], _ => true
  | _ :: _, [] => false
  | a :: as, b :: bs => a == b && charsLead as bs

/-- Python `style.startswith('Heading')` (docx_utils.py line 135). -/
def pyStartsWith (s pre : String) : Bool := charsLead pre.data s.data

/-- Splitter for Python `str.split()` with no separator: cut at every
whitespace character, collecting the current piece (in reverse). -/
def splitWsAux : List Char → List Char → List String
  | [], acc => [⟨acc.reverse⟩]
  | c :: cs, acc =>
    if c.isWhitespace then ⟨acc.reverse⟩ :: splitWsAux cs []
    else splitWsAux cs (c :: acc)

/-- Python `str.split()` with no separator: split on whitespace, dropping
empty pieces. -/
def pySplitWs (s : String) : List String :=
  (splitWsAux s.data []).filter (fun t => t ≠ "")

/-- Digit-sequence parser: the numeric part of Python `int(token)`. -/
def parseDigitsAux : List Char → Nat → Option Nat
  | [], acc => some acc
  | c :: cs, acc =>
    if c.isDigit then parseDigitsAux cs (acc * 10 + (c.toNat - 48))
    else none

/-- Python `int(token)` on a whitespace-free token: an optional sign
followed by at least one digit; anything else raises `ValueError`
(here: `none`).  (Underscore digit separators are not modelled.) -/
def pyInt? (s : String) : Option Int :=
  match s.data with
  | [] => none
  | '-' :: cs =>
    if cs.isEmpty then none
    else (parseDigitsAux cs 0).map (fun n => -(n : Int))
  | '+' :: cs =>
    if cs.isEmpty then none
    else (parseDigitsAux cs 0).map (fun n => (n : Int))
  | cs => (parseDigitsAux cs 0).map (fun n => (n : Int))

/-- `int(style.split()[-1])` wrapped in `except (ValueError, IndexError)`
(docx_utils.py lines 139-142): take the last whitespace-separated token of
the style name and parse it as an integer; any failure yields `None`. -/
def headingLevelOf (style : String) : Option Int :=
  match (pySplitWs style).getLast? with
  | none => none
  | some tok => pyInt? tok

/-- The per-paragraph record built by the loop of
`analyze_document_structure` (docx_utils.py lines 130-154): stripped text,
style name, heading flag from `style.startswith('Heading')`, and the level
parsed from the style name when it is a heading. -/
def mkParaInfo (idx : Nat) (p : RawPara) : ParagraphInfo :=
  let text := pyStrip p.text
  let style := p.style
  let is_heading := pyStartsWith style "Heading"
  { index := idx
    text := text
    style := style
    is_heading := is_heading
    heading_level := if is_heading then headingLevelOf style else none }

/-- The loop of `analyze_document_structure` (docx_utils.py lines 130-158),
carrying the running index of `enumerate`: each paragraph's record is
appended to the paragraph list and, when it is a heading, to the heading
list; the index is appended to the empty list when the stripped text is
falsy.  Returns (paragraphs_info, headings, empty_paragraphs). -/
def analyzeLoop : Nat → List RawPara → List ParagraphInfo × List ParagraphInfo × List Nat
  | _, [] => ([], [], [])
  | idx, p :: ps =>
    let info := mkParaInfo idx p
    let rest := analyzeLoop (idx + 1) ps
    (info :: rest.1,
     if info.is_heading then info :: rest.2.1 else rest.2.1,
     if info.text = "" then idx :: rest.2.2 else rest.2.2)

/-- docx_utils.py lines 115-170, `analyze_document_structure`: run the
analysis loop over the document's paragraphs and assemble the
`DocumentStructure` with `total_paragraphs = len(doc.paragraphs)`. -/
def analyze_document_structure (doc : List RawPara) : DocumentStructure :=
  let r := analyzeLoop 0 doc
  { total_paragraphs := doc.length
    paragraphs := r.1
    headings := r.2.1
    empty_paragraphs := r.2.2 }

/-- Unfolding equation of the analysis loop on a nonempty document. -/
theorem analyzeLoop_cons (idx : Nat) (p : RawPara) (ps : List RawPara) :
    analyzeLoop idx (p :: ps) =
      (mkParaInfo idx p :: (analyzeLoop (idx + 1) ps).1,
       if (mkParaInfo idx p).is_heading then
         mkParaInfo idx p :: (analyzeLoop (idx + 1) ps).2.1
       else (analyzeLoop (idx + 1) ps).2.1,
       if (mkParaInfo idx p).text = "" then idx :: (analyzeLoop (idx + 1) ps).2.2
       else (analyzeLoop (idx + 1) ps).2.2) := rfl

/-- The analysis loop yields one record per paragraph. -/
theorem analyzeLoop_length (idx : Nat) (ps : List RawPara) :
    (analyzeLoop idx ps).1.length = ps.length := by
  induction ps generalizing idx with
  | nil => rfl
  | cons p ps ih => rw [analyzeLoop_cons]; simp [ih]

/-- The record at position `i` of the loop started at `idx` has index
`idx + i`. -/
theorem analyzeLoop_index (idx : Nat) (ps : List RawPara) (i : Nat)
    (r : ParagraphInfo) (h : (analyzeLoop idx ps).1[i]? = some r) :
    r.index = idx + i := by
  induction ps generalizing idx i with
  | nil => simp [analyzeLoop] at h
  | cons p ps ih =>
    rw [analyzeLoop_cons] at h
    cases i with
    | zero =>
      simp only [List.getElem?_cons_zero, Option.some.injEq] at h
      rw [← h]
      simp [mkParaInfo]
    | succ i =>
      simp only [List.getElem?_cons_succ] at h
      have := ih (idx + 1) i h
      omega

/-- Claim C6: for every document, the analyzed structure has as many
paragraph records as `total_paragraphs`, and the record stored at position
`i` carries `index = i`: indices are contiguous, zero-based, and match
document paragraph order at capture time. -/
theorem structure_indices_contiguous (doc : List RawPara) :
    (analyze_document_structure doc).paragraphs.length =
      (analyze_document_structure doc).total_paragraphs ∧
    ∀ (i : Nat) (r : ParagraphInfo),
      (analyze_document_structure doc).paragraphs[i]? = some r →
        r.index = i := by
  refine ⟨analyzeLoop_length 0 doc, fun i r h => ?_⟩
  have h0 : (analyzeLoop 0 doc).1[i]? = some r := h
  simpa using analyzeLoop_index 0 doc i r h0

/-- A three-paragraph document (a heading, a whitespace-only paragraph and
a body paragraph) used as a concrete analysis input below. -/
def docRaw3 : List RawPara :=
  [⟨"Title", "Heading 1"⟩, ⟨"  ", "Normal"⟩, ⟨"body text", "Normal"⟩]

/-- Witness for the index-contiguity claim at a concrete document: the
record stored at position 1 indeed carries index 1. -/
theorem structure_indices_contiguous_witness :
    (analyze_document_structure docRaw3).paragraphs[1]? =
      some ⟨1, "", "Normal", false, none⟩ ∧
    (⟨1, "", "Normal", false, none⟩ : ParagraphInfo).index = 1 :=
  ⟨by decide,
   (structure_indices_contiguous docRaw3).2 1 ⟨1, "", "Normal", false, none⟩
     (by decide)⟩

/-- Membership in the loop's empty-paragraph list characterizes exactly the
records with empty (stripped) text. -/
theorem analyzeLoop_empty_mem (idx : Nat) (ps : List RawPara) (i : Nat) :
    i ∈ (analyzeLoop idx ps).2.2 ↔
      ∃ r ∈ (analyzeLoop idx ps).1, r.index = i ∧ r.text = "" := by
  induction ps generalizing idx with
  | nil => simp [analyzeLoop]
  | cons p ps ih =>
    rw [analyzeLoop_cons]
    simp only [List.mem_cons]
    by_cases he : (mkParaInfo idx p).text = ""
    · rw [if_pos he]
      simp only [List.mem_cons]
      constructor
      · rintro (rfl | hi)
        · exact ⟨mkParaInfo i p, Or.inl rfl, rfl, he⟩
        · obtain ⟨r, hr, hri, hrt⟩ := (ih (idx + 1)).mp hi
          exact ⟨r, Or.inr hr, hri, hrt⟩
      · rintro ⟨r, hr | hr, hri, hrt⟩
        · subst hr
          exact Or.inl hri.symm
        · exact Or.inr ((ih (idx + 1)).mpr ⟨r, hr, hri, hrt⟩)
    · rw [if_neg he]
      constructor
      · intro hi
        obtain ⟨r, hr, hri, hrt⟩ := (ih (idx + 1)).mp hi
        exact ⟨r, Or.inr hr, hri, hrt⟩
      · rintro ⟨r, hr | hr, hri, hrt⟩
        · subst hr
          exact absurd hrt he
        · exact (ih (idx + 1)).mpr ⟨r, hr, hri, hrt⟩

/-- Every index in the loop's empty-paragraph list is at least the starting
index, and the list is strictly increasing. -/
theorem analyzeLoop_empty_sorted (idx : Nat) (ps : List RawPara) :
    (∀ j ∈ (analyzeLoop idx ps).2.2, idx ≤ j) ∧
      (analyzeLoop idx ps).2.2.Pairwise (· < ·) := by
  induction ps generalizing idx with
  | nil => simp [analyzeLoop]
  | cons p ps ih =>
    obtain ⟨hge, hpw⟩ := ih (idx + 1)
    rw [analyzeLoop_cons]
    by_cases he : (mkParaInfo idx p).text = ""
    · rw [if_pos he]
      refine ⟨?_, List.Pairwise.cons (fun j hj => ?_) hpw⟩
      · intro j hj
        rcases List.mem_cons.mp hj with rfl | hj
        · exact Nat.le_refl j
        · exact Nat.le_of_succ_le (hge j hj)
      · exact Nat.lt_of_succ_le (hge j hj)
    · rw [if_neg he]
      exact ⟨fun j hj => Nat.le_of_succ_le (hge j hj), hpw⟩

/-- Claim C7: the analyzed structure's `empty_paragraphs` lists exactly the
indices of paragraph records whose (stripped) `text` is the empty string —
every listed index belongs to an empty-text record, every empty-text record
is listed — and the listed indices are strictly increasing, hence distinct:
the correspondence is a bijection. -/
theorem empty_paragraphs_bijection (doc : List RawPara) :
    (∀ i, i ∈ (analyze_document_structure doc).empty_paragraphs ↔
      ∃ r ∈ (analyze_document_structure doc).paragraphs,
        r.index = i ∧ r.text = "") ∧
    (analyze_document_structure doc).empty_paragraphs.Pairwise (· < ·) :=
  ⟨fun i => analyzeLoop_empty_mem 0 doc i, (analyzeLoop_empty_sorted 0 doc).2⟩

/-- Witness for the empty-paragraph claim: in the concrete document, index
1 (the whitespace-only paragraph) is listed. -/
theorem empty_paragraphs_bijection_witness :
    1 ∈ (analyze_document_structure docRaw3).empty_paragraphs :=
  ((empty_paragraphs_bijection docRaw3).1 1).mpr
    ⟨⟨1, "", "Normal", false, none⟩, by decide, rfl, rfl⟩

/-! ## Image extraction (docx_utils.py lines 50-112) -/

/-- Does `needle` occur contiguously in `hay`?  Python's `in` operator on
strings, checked at every suffix of `hay`. -/
def charsOccur (needle : List Char) : List Char → Bool
  | [] => charsLead needle []
  | c :: cs => charsLead needle (c :: cs) || charsOccur needle cs

/-- Python `needle in hay` for strings ('"image" in rel.target_ref',
docx_utils.py line 70). -/
def pyIn (needle hay : String) : Bool := charsOccur needle.data hay.data

/-- Splitter for Python `str.split(sep)` with a one-character separator:
cut at every occurrence of `sep`, keeping empty pieces. -/
def splitCharAux (sep : Char) : List Char → List Char → List String
  | [], acc => [⟨acc.reverse⟩]
  | c :: cs, acc =>
    if c == sep then ⟨acc.reverse⟩ :: splitCharAux sep cs []
    else splitCharAux sep cs (c :: acc)

/-- Python `s.split(sep)` for a one-character separator. -/
def pySplitChar (s : String) (sep : Char) : List String := splitCharAux sep s.data []

/-- docx_utils.py lines 75-78: `ext = content_type.split('/')[-1]`, then
`jpeg` is normalized to `jpg`. -/
def pyExt (content_type : String) : String :=
  let e := (pySplitChar content_type '/').getLastD ""
  if e = "jpeg" then "jpg" else e

/-- Modelled from the spec (for comparison with the code's `pyExt`): the
claimed extension rule — `jpg` exactly when the whole content type is
`image/jpeg`, and otherwise the last MIME subtype token verbatim. -/
def specExt (content_type : String) : String :=
  if content_type = "image/jpeg" then "jpg"
  else (pySplitChar content_type '/').getLastD ""

/-- One entry of the document part's relationship table (`doc.part.rels`):
its id, its target reference, and the target part's binary payload and MIME
content type. -/
structure Rel where
  rel_id : String
  target_ref : String
  blob : List Nat
  content_type : String
deriving DecidableEq, Repr

/-- `ImageInfo` dataclass (docx_utils.py lines 18-28); `temp_path` holds
the joined output path the bytes were persisted to. -/
structure ImageInfo where
  index : Nat
  rel_id : String
  filename : String
  content_type : String
  size_bytes : Nat
  width : Option Nat
  height : Option Nat
  temp_path : String
deriving DecidableEq, Repr

/-- The loop of `extract_images_from_docx` (docx_utils.py lines 69-109),
carrying the running `image_index` counter, which increases only over
relationships whose `target_ref` contains `"image"`: for each such
relationship the payload is written to `output_dir/image_<n>.<ext>`, its
dimensions are decoded (`decode` stands for PIL; a failure yields absent
dimensions), and an `ImageInfo` record is appended.  Returns the records
together with the list of file writes (path, bytes) in order. -/
def extractLoop (decode : List Nat → Option (Nat × Nat)) (output_dir : String) :
    Nat → List Rel → List ImageInfo × List (String × List Nat)
  | _, [] => ([], [])
  | n, r :: rs =>
    if pyIn "image" r.target_ref then
      let ext := pyExt r.content_type
      let filename := "image_" ++ toString n ++ "." ++ ext
      let temp_path := output_dir ++ "/" ++ filename
      let dims := decode r.blob
      let info : ImageInfo :=
        { index := n
          rel_id := r.rel_id
          filename := filename
          content_type := r.content_type
          size_bytes := r.blob.length
          width := dims.map Prod.fst
          height := dims.map Prod.snd
          temp_path := temp_path }
      let rest := extractLoop decode output_dir (n + 1) rs
      (info :: rest.1, (temp_path, r.blob) :: rest.2)
    else extractLoop decode output_dir n rs

/-- docx_utils.py lines 50-112, `extract_images_from_docx`: walk the
relationship table with the counter starting at 0.  (The
`output_dir.mkdir(parents=True, exist_ok=True)` side effect only creates
the directory and is not modelled.) -/
def extract_images_from_docx (decode : List Nat → Option (Nat × Nat))
    (output_dir : String) (rels : List Rel) :
    List ImageInfo × List (String × List Nat) :=
  extractLoop decode output_dir 0 rels

/-- The number of image-typed entries of a relationship table. -/
def countImageRels (rels : List Rel) : Nat :=
  (rels.filter (fun r => pyIn "image" r.target_ref)).length

/-- Unfolding equation of the extraction loop on an image-typed head. -/
theorem extractLoop_cons_image (decode : List Nat → Option (Nat × Nat))
    (output_dir : String) (n : Nat) (r : Rel) (rs : List Rel)
    (h : pyIn "image" r.target_ref = true) :
    extractLoop decode output_dir n (r :: rs) =
      ({ index := n
         rel_id := r.rel_id
         filename := "image_" ++ toString n ++ "." ++ pyExt r.content_type
         content_type := r.content_type
         size_bytes := r.blob.length
         width := (decode r.blob).map Prod.fst
         height := (decode r.blob).map Prod.snd
         temp_path := output_dir ++ "/" ++ ("image_" ++ toString n ++ "." ++ pyExt r.content_type) }
        :: (extractLoop decode output_dir (n + 1) rs).1,
       (output_dir ++ "/" ++ ("image_" ++ toString n ++ "." ++ pyExt r.content_type), r.blob)
        :: (extractLoop decode output_dir (n + 1) rs).2) := by
  rw [extractLoop, if_pos h]

/-- Unfolding equation of the extraction loop on a non-image head. -/
theorem extractLoop_cons_skip (decode : List Nat → Option (Nat × Nat))
    (output_dir : String) (n : Nat) (r : Rel) (rs : List Rel)
    (h : ¬ pyIn "image" r.target_ref = true) :
    extractLoop decode output_dir n (r :: rs) = extractLoop decode output_dir n rs := by
  rw [extractLoop, if_neg h]

/-- A nonempty string append: a path of the form `dir ++ "/" ++ name` is
never the empty string. -/
theorem path_join_ne_empty (dir name : String) : dir ++ "/" ++ name ≠ "" := by
  intro h
  have hlen := congrArg String.length h
  rw [String.length_append, String.length_append] at hlen
  have h1 : ("/" : String).length = 1 := rfl
  have h0 : ("" : String).length = 0 := rfl
  omega

/-- Indexed contract of the extraction loop started at counter `n`: one
record per image-typed relationship, the record at position `k` carries
index `n + k`, the synthesized filename and joined storage path, and its
payload is among the writes with the recorded byte size. -/
theorem extractLoop_spec (decode : List Nat → Option (Nat × Nat))
    (output_dir : String) (n : Nat) (rels : List Rel) :
    (extractLoop decode output_dir n rels).1.length = countImageRels rels ∧
    ∀ (k : Nat) (r : ImageInfo),
      (extractLoop decode output_dir n rels).1[k]? = some r →
        r.index = n + k ∧
        r.filename = "image_" ++ toString (n + k) ++ "." ++ pyExt r.content_type ∧
        r.temp_path = output_dir ++ "/" ++ r.filename ∧
        ∃ b, (r.temp_path, b) ∈ (extractLoop decode output_dir n rels).2 ∧
          b.length = r.size_bytes := by
  induction rels generalizing n with
  | nil =>
    refine ⟨rfl, fun k r h => ?_⟩
    simp [extractLoop] at h
  | cons rel rs ih =>
    by_cases him : pyIn "image" rel.target_ref = true
    · rw [extractLoop_cons_image decode output_dir n rel rs him]
      obtain ⟨ihlen, ihk⟩ := ih (n + 1)
      constructor
      · simpa [countImageRels, him] using ihlen
      · intro k r h
        cases k with
        | zero =>
          simp only [List.getElem?_cons_zero, Option.some.injEq] at h
          subst h
          refine ⟨by simp, by simp, rfl, rel.blob, List.mem_cons_self _ _, rfl⟩
        | succ k =>
          simp only [List.getElem?_cons_succ] at h
          obtain ⟨hidx, hfn, htp, b, hb, hbl⟩ := ihk k r h
          have harith : n + 1 + k = n + (k + 1) := by omega
          refine ⟨by omega, ?_, htp, b, List.mem_cons_of_mem _ hb, hbl⟩
          rw [hfn, harith]
    · rw [extractLoop_cons_skip decode output_dir n rel rs him]
      obtain ⟨ihlen, ihk⟩ := ih n
      refine ⟨?_, ihk⟩
      simpa [countImageRels, him] using ihlen

/-- Claim C8 (counterexample): an image-typed relationship whose content
type is `application/jpeg` — not `image/jpeg` — is persisted with
extension `jpg`, not with the last MIME subtype token `jpeg` the claim
prescribes for that case: the code normalizes a trailing `jpeg` token
regardless of the MIME type part. -/
theorem extension_rule_counterexample :
    (extract_images_from_docx (fun _ => none) "out"
        [⟨"rId1", "media/imageX.bin", [1, 2, 3], "application/jpeg"⟩]).1.map
      ImageInfo.filename = ["image_0.jpg"] ∧
    ("image_0." ++ specExt "application/jpeg" = "image_0.jpeg") ∧
    (extract_images_from_docx (fun _ => none) "out"
        [⟨"rId1", "media/imageX.bin", [1, 2, 3], "application/jpeg"⟩]).1.map
      ImageInfo.filename ≠ ["image_0." ++ specExt "application/jpeg"] := by
  refine ⟨by decide, by decide, by decide⟩

/-- Claim C8 (amended): extraction returns exactly one record per
image-typed relationship; the record at position `k` carries index `k` (the
counter increases only over image-typed relationships), the filename
`image_<k>.<ext>` where the extension is the last MIME subtype token with
`jpeg` normalized to `jpg` (so `image/jpeg` yields `jpg`), and a non-empty
storage path under the output directory to which the payload was written
(with the recorded byte size). -/
theorem extract_records_amended (decode : List Nat → Option (Nat × Nat))
    (output_dir : String) (rels : List Rel) :
    (extract_images_from_docx decode output_dir rels).1.length = countImageRels rels ∧
    ∀ (k : Nat) (r : ImageInfo),
      (extract_images_from_docx decode output_dir rels).1[k]? = some r →
        r.index = k ∧
        r.filename = "image_" ++ toString k ++ "." ++ pyExt r.content_type ∧
        r.temp_path = output_dir ++ "/" ++ r.filename ∧
        r.temp_path ≠ "" ∧
        ∃ b, (r.temp_path, b) ∈ (extract_images_from_docx decode output_dir rels).2 ∧
          b.length = r.size_bytes := by
  obtain ⟨hlen, hk⟩ := extractLoop_spec decode output_dir 0 rels
  refine ⟨hlen, fun k r h => ?_⟩
  obtain ⟨hidx, hfn, htp, hb⟩ := hk k r h
  refine ⟨by simpa using hidx, by simpa using hfn, htp, ?_, hb⟩
  rw [htp]
  exact path_join_ne_empty output_dir r.filename

/-- A mixed relationship table (two image parts around a non-image part)
used as a concrete extraction input below. -/
def relsMixed : List Rel :=
  [⟨"rId1", "media/image1.png", [5, 6], "image/png"⟩,
   ⟨"rId2", "styles.xml", [7], "application/xml"⟩,
   ⟨"rId3", "media/image2.jpeg", [3, 4, 5], "image/jpeg"⟩]

/-- The second record extracted from the mixed table. -/
def imgRecMixed1 : ImageInfo :=
  ⟨1, "rId3", "image_1.jpg", "image/jpeg", 3, none, none, "imgs/image_1.jpg"⟩

/-- Witness for the amended extraction claim: on the mixed table the second
image part (behind a non-image part) gets index 1, filename `image_1.jpg`
and an existing non-empty storage path. -/
theorem extract_records_amended_witness :
    (extract_images_from_docx (fun _ => none) "imgs" relsMixed).1[1]? =
      some imgRecMixed1 ∧
    (imgRecMixed1.index = 1 ∧
      imgRecMixed1.filename = "image_" ++ toString 1 ++ "." ++ pyExt imgRecMixed1.content_type ∧
      imgRecMixed1.temp_path = "imgs" ++ "/" ++ imgRecMixed1.filename ∧
      imgRecMixed1.temp_path ≠ "" ∧
      ∃ b, (imgRecMixed1.temp_path, b) ∈
          (extract_images_from_docx (fun _ => none) "imgs" relsMixed).2 ∧
        b.length = imgRecMixed1.size_bytes) :=
  ⟨by decide,
   (extract_records_amended (fun _ => none) "imgs" relsMixed).2 1 imgRecMixed1
     (by decide)⟩

/-- The dimension-independent core of an extraction record: everything but
the storage path. -/
def ImageInfo.core (r : ImageInfo) :
    Nat × String × String × String × Nat × Option Nat × Option Nat :=
  (r.index, r.rel_id, r.filename, r.content_type, r.size_bytes, r.width, r.height)

/-- The extraction loop writes the same payloads in the same order and
produces the same records (up to the storage path) regardless of the output
directory. -/
theorem extractLoop_dir_irrelevant (decode : List Nat → Option (Nat × Nat))
    (dirA dirB : String) (n : Nat) (rels : List Rel) :
    (extractLoop decode dirA n rels).1.map ImageInfo.core =
      (extractLoop decode dirB n rels).1.map ImageInfo.core ∧
    (extractLoop decode dirA n rels).2.map Prod.snd =
      (extractLoop decode dirB n rels).2.map Prod.snd := by
  induction rels generalizing n with
  | nil => exact ⟨rfl, rfl⟩
  | cons rel rs ih =>
    by_cases him : pyIn "image" rel.target_ref = true
    · rw [extractLoop_cons_image decode dirA n rel rs him,
        extractLoop_cons_image decode dirB n rel rs him]
      obtain ⟨ihc, ihw⟩ := ih (n + 1)
      constructor
      · simpa [ImageInfo.core] using ihc
      · simpa using ihw
    · rw [extractLoop_cons_skip decode dirA n rel rs him,
        extractLoop_cons_skip decode dirB n rel rs him]
      exact ih n

/-- Claim C9: extracting from the same document into two directories yields
the same number of records, record for record the same content (up to the
storage path), and byte-identical persisted payloads at every matching
write position: extraction is a deterministic function of the source
document, independent of the chosen output directory. -/
theorem extract_deterministic (decode : List Nat → Option (Nat × Nat))
    (rels : List Rel) (dirA dirB : String) :
    (extract_images_from_docx decode dirA rels).1.length =
      (extract_images_from_docx decode dirB rels).1.length ∧
    (extract_images_from_docx decode dirA rels).1.map ImageInfo.core =
      (extract_images_from_docx decode dirB rels).1.map ImageInfo.core ∧
    ∀ (k : Nat), ((extract_images_from_docx decode dirA rels).2[k]?).map Prod.snd =
      ((extract_images_from_docx decode dirB rels).2[k]?).map Prod.snd := by
  obtain ⟨hc, hw⟩ := extractLoop_dir_irrelevant decode dirA dirB 0 rels
  refine ⟨?_, hc, fun k => ?_⟩
  · simpa using congrArg List.length hc
  · rw [← List.getElem?_map, ← List.getElem?_map]
    rw [show (extract_images_from_docx decode dirA rels).2.map Prod.snd =
      (extract_images_from_docx decode dirB rels).2.map Prod.snd from hw]

end BidAgent
